import Mathlib

/-!
Shallow embedding of the pitu conversational state-machine runtime
(src/src/core/flow.ts and the type declarations it consumes), together
with theorems settling the specification claims about it.

Modelling conventions:
- Handlers (onEnter, onReceive) are arbitrary TypeScript functions that may
  call the injected send and transition callbacks.  They are embedded as
  pure functions from their visible inputs (message, context) to the list
  of callback invocations they perform, in chronological order
  (the Effect type).  The engine replays such a list exactly as the
  JavaScript closures would: send appends to the messages accumulator,
  transition resolves its target and overwrites the pending next id.
- The Map used as state manager is embedded as an association list with
  Map.set / Map.get semantics (mapSet, mapGet).
- JavaScript truthiness on optional strings is modelled explicitly:
  a string is truthy when nonempty (strTruthy), an optional argument is
  truthy when present and nonempty (optTruthy), and the JavaScript
  a-or-else-b idiom on strings is jsOrStr.
- Bot.internalRun returns, besides the FlowResponse the code builds, ghost
  instrumentation: whether each handler phase actually invoked a handler,
  the effect list each phase executed, and the current / final node ids
  the code computed.  The instrumentation does not feed back into the
  response; it only records what happened, so claims about which handlers
  ran can be stated.
-/

namespace Pitu

/-- A callback invocation a handler performs: send(message) or
transition(nodeId), as in node-handlers.ts. -/
inductive Effect where
  | send (message : String) : Effect
  | transition (nodeId : String) : Effect
deriving DecidableEq, Repr

/-- Embeds NodeHandlers from src/src/types/node-handlers.ts: the optional
terminal flag (named end in the source, absence read as false by the
truthiness tests the engine performs) and the optional handlers, each
embedded as the effect script it performs on its visible inputs. -/
structure NodeHandlers (T : Type) where
  «end» : Bool := false
  onEnter : Option (T → List Effect) := none
  onReceive : Option (String → T → List Effect) := none

/-- Embeds FlowResponse (messages, next, done); done is the truthiness of
the optional end flag the code reads off the final node. -/
structure FlowResponse where
  messages : List String
  next : Option String
  done : Bool
deriving DecidableEq, Repr

/-- Embeds BotPlugin from src/src/types/plugin.ts: an optional intercept
function receiving the context and the next handler in the chain. -/
structure BotPlugin (T : Type) where
  intercept : Option (T → (Unit → FlowResponse) → FlowResponse) := none

/-- Embeds BotConfig from src/src/types/bot.ts.  The code reads plugins
through a default-to-empty guard, embedded as a plain list defaulting
to the empty list. -/
structure BotConfig (T : Type) where
  defaultStartNode : String
  plugins : List (BotPlugin T) := []

/-- Embeds RunArgs from src/src/types/bot.ts. -/
structure RunArgs (T : Type) where
  node : Option String := none
  context : T
  message : Option String := none

/-- The state manager Map of the Bot class, embedded as an association
list from fully qualified node id to node definition. -/
abbrev StateManager (T : Type) := List (String × NodeHandlers T)

/-- Map.get: the value of the first entry whose key matches. -/
def mapGet {T : Type} (m : StateManager T) (k : String) : Option (NodeHandlers T) :=
  (m.find? (fun p => p.1 == k)).map (fun p => p.2)

/-- Map.set: overwrite the entry in place when the key is present,
append a fresh entry otherwise. -/
def mapSet {T : Type} (m : StateManager T) (k : String) (v : NodeHandlers T) :
    StateManager T :=
  if m.any (fun p => p.1 == k) then
    m.map (fun p => if p.1 == k then (k, v) else p)
  else
    m ++ [(k, v)]

/-- JavaScript truthiness of a string: nonempty. -/
def strTruthy (s : String) : Bool := !s.data.isEmpty

/-- JavaScript truthiness of an optional string argument. -/
def optTruthy : Option String → Bool
  | none => false
  | some s => strTruthy s

/-- The JavaScript a-or-else-b idiom on an optional string: the string
itself when truthy, the fallback otherwise. -/
def jsOrStr : Option String → String → String
  | none, b => b
  | some s, b => if strTruthy s then s else b

/-- Embeds the JavaScript includes test the transition closure performs,
for the single character separator: membership in the character list. -/
def strIncludes (s : String) (c : Char) : Bool := s.data.contains c

/-- Embeds currentNodeId.split(".")[0]: the characters before the first
separator, the whole string when no separator occurs. -/
def flowSegmentOf (s : String) : String :=
  String.mk (s.data.takeWhile (fun c => !(c == '.')))

/-- The transition target resolution inlined in the transition closure
(flow.ts lines 184 to 187): a target containing the separator is kept,
a bare target is prefixed with the flow segment of the current node id. -/
def resolveTarget (currentNodeId target : String) : String :=
  if strIncludes target '.' then target
  else flowSegmentOf currentNodeId ++ "." ++ target

/-- One callback invocation acting on the execution state
(messages accumulator, pending next id), exactly as the send and
transition closures of internalRun do. -/
def applyEffect (currentNodeId : String) (st : List String × Option String) :
    Effect → List String × Option String
  | Effect.send m => (st.1 ++ [m], st.2)
  | Effect.transition nodeId => (st.1, some (resolveTarget currentNodeId nodeId))

/-- Replaying the callback invocations of a handler in order. -/
def runEffects (currentNodeId : String) (st : List String × Option String)
    (es : List Effect) : List String × Option String :=
  es.foldl (applyEffect currentNodeId) st

/-- The embedded Bot instance: configuration plus the state manager Map. -/
structure Bot (T : Type) where
  config : BotConfig T
  stateManager : StateManager T := []

/-- Embeds the Flow class (flow builder scoped to one flow name). -/
structure Flow (T : Type) where
  flowName : String
  stateManager : StateManager T

/-- Embeds Flow.node (flow.ts lines 67 to 69): register the definition
under the key flowName, separator, id. -/
def Flow.node {T : Type} (fl : Flow T) (id : String) (handlers : NodeHandlers T) :
    Flow T :=
  { fl with stateManager := mapSet fl.stateManager (fl.flowName ++ "." ++ id) handlers }

/-- Embeds Bot.flow: run the builder on a Flow scoped to the given name
sharing the state manager of the Bot (state passing replaces the shared
mutable Map of the source). -/
def Bot.flow {T : Type} (bot : Bot T) (name : String) (builder : Flow T → Flow T) :
    Bot T :=
  { bot with stateManager := (builder { flowName := name, stateManager := bot.stateManager }).stateManager }

/-- isFirstRun of internalRun: the node argument is falsy. -/
def isFirstRunOf {T : Type} (_bot : Bot T) (args : RunArgs T) : Bool :=
  !optTruthy args.node

/-- currentNodeId of internalRun: the node argument, or else the
configured default start node. -/
def currentNodeIdOf {T : Type} (bot : Bot T) (args : RunArgs T) : String :=
  jsOrStr args.node bot.config.defaultStartNode

/-- The registry entry of the current node (absent when never registered). -/
def currentNodeOf {T : Type} (bot : Bot T) (args : RunArgs T) : Option (NodeHandlers T) :=
  mapGet bot.stateManager (currentNodeIdOf bot args)

/-- The onReceive handler of the current node, when both exist. -/
def receiveHandlerOf {T : Type} (bot : Bot T) (args : RunArgs T) :
    Option (String → T → List Effect) :=
  (currentNodeOf bot args).bind (fun n => n.onReceive)

/-- Whether internalRun invokes onReceive: the message argument is truthy
and the current node carries an onReceive handler. -/
def receiveRunsOf {T : Type} (bot : Bot T) (args : RunArgs T) : Bool :=
  optTruthy args.message && (receiveHandlerOf bot args).isSome

/-- The callback invocations the onReceive phase performs: the handler
script on the supplied message and context when the phase runs, nothing
otherwise. -/
def receiveEffectsOf {T : Type} (bot : Bot T) (args : RunArgs T) : List Effect :=
  match receiveHandlerOf bot args with
  | some h => if optTruthy args.message then h (args.message.getD "") args.context else []
  | none => []

/-- The execution state after the onReceive phase. -/
def stAfterReceiveOf {T : Type} (bot : Bot T) (args : RunArgs T) :
    List String × Option String :=
  runEffects (currentNodeIdOf bot args) ([], none) (receiveEffectsOf bot args)

/-- finalNodeId of internalRun: the pending next id after onReceive,
or else the current node id (flow.ts line 198). -/
def finalNodeIdOf {T : Type} (bot : Bot T) (args : RunArgs T) : String :=
  jsOrStr (stAfterReceiveOf bot args).2 (currentNodeIdOf bot args)

/-- The registry entry of the final node, looked up before onEnter runs. -/
def finalNodeOf {T : Type} (bot : Bot T) (args : RunArgs T) : Option (NodeHandlers T) :=
  mapGet bot.stateManager (finalNodeIdOf bot args)

/-- The onEnter handler of the final node, when both exist. -/
def enterHandlerOf {T : Type} (bot : Bot T) (args : RunArgs T) :
    Option (T → List Effect) :=
  (finalNodeOf bot args).bind (fun n => n.onEnter)

/-- The guard of the onEnter phase (flow.ts line 200): first run, or a
truthy pending next id after onReceive. -/
def enterCondOf {T : Type} (bot : Bot T) (args : RunArgs T) : Bool :=
  isFirstRunOf bot args || optTruthy (stAfterReceiveOf bot args).2

/-- Whether internalRun invokes onEnter: the guard holds and the final
node carries an onEnter handler. -/
def enterRunsOf {T : Type} (bot : Bot T) (args : RunArgs T) : Bool :=
  enterCondOf bot args && (enterHandlerOf bot args).isSome

/-- The callback invocations the onEnter phase performs. -/
def enterEffectsOf {T : Type} (bot : Bot T) (args : RunArgs T) : List Effect :=
  match enterHandlerOf bot args with
  | some h => if enterCondOf bot args then h args.context else []
  | none => []

/-- The execution state after the onEnter phase; the transition closure
still resolves against the current node id captured at the start. -/
def stAfterEnterOf {T : Type} (bot : Bot T) (args : RunArgs T) :
    List String × Option String :=
  runEffects (currentNodeIdOf bot args) (stAfterReceiveOf bot args) (enterEffectsOf bot args)

/-- Truthiness of the optional end flag of an optional registry entry,
as the response construction reads it. -/
def terminalOf {T : Type} : Option (NodeHandlers T) → Bool
  | some n => n.«end»
  | none => false

/-- The result of one engine execution: the FlowResponse the code returns,
plus ghost instrumentation of what happened during the call. -/
structure RunResult where
  response : FlowResponse
  receiveInvoked : Bool
  enterInvoked : Bool
  receiveEffects : List Effect
  enterEffects : List Effect
  currentNodeId : String
  finalNodeId : String

/-- Embeds Bot.internalRun (flow.ts lines 175 to 215).  The response
fields follow line 210 to 214: messages is the accumulator, next is
absent exactly when the final node (resolved before onEnter) is terminal
and otherwise the pending next id or else the current node id, done is
the terminal flag of that final node. -/
def Bot.internalRun {T : Type} (bot : Bot T) (args : RunArgs T) : RunResult :=
  { response :=
      { messages := (stAfterEnterOf bot args).1
      , next :=
          if terminalOf (finalNodeOf bot args) then none
          else some (jsOrStr (stAfterEnterOf bot args).2 (currentNodeIdOf bot args))
      , done := terminalOf (finalNodeOf bot args) }
  , receiveInvoked := receiveRunsOf bot args
  , enterInvoked := enterRunsOf bot args
  , receiveEffects := receiveEffectsOf bot args
  , enterEffects := enterEffectsOf bot args
  , currentNodeId := currentNodeIdOf bot args
  , finalNodeId := finalNodeIdOf bot args }

/-- Embeds the plugin chain construction of Bot.run (flow.ts lines
160 to 173): fold over the reversed plugin list, wrapping the handler
with each intercept that exists. -/
def buildHandler {T : Type} (ctx : T) (plugins : List (BotPlugin T))
    (base : Unit → FlowResponse) : Unit → FlowResponse :=
  plugins.reverse.foldl
    (fun handler plugin =>
      match plugin.intercept with
      | some f => fun _ => f ctx handler
      | none => handler)
    base

/-- Embeds Bot.run: build the chain around the engine bound to the call
arguments, then invoke it. -/
def Bot.run {T : Type} (bot : Bot T) (args : RunArgs T) : FlowResponse :=
  buildHandler args.context bot.config.plugins
    (fun _ => (bot.internalRun args).response) ()

/-- Whether a callback invocation is a transition call. -/
def isTransitionEffect : Effect → Bool
  | Effect.send _ => false
  | Effect.transition _ => true

/-- The arguments of the send calls of an effect list, in order. -/
def sendTargets (es : List Effect) : List String :=
  es.filterMap (fun e => match e with
    | Effect.send m => some m
    | Effect.transition _ => none)

/-- The target of the last transition call of an effect list, if any. -/
def lastTransitionTarget : List Effect → Option String
  | [] => none
  | e :: es =>
    match lastTransitionTarget es with
    | some t => some t
    | none =>
      match e with
      | Effect.transition t => some t
      | Effect.send _ => none

/-- The value the pending next id holds after the first k callback
invocations of one execution (the chronological trace is the onReceive
effects followed by the onEnter effects; the composition lemma
stAfterEnter_eq_trace shows the engine state is the fold of this
trace, so prefixes of the fold are the intermediate states). -/
def nextAfterPrefix {T : Type} (bot : Bot T) (args : RunArgs T) (k : Nat) :
    Option String :=
  (runEffects (currentNodeIdOf bot args) ([], none)
    ((receiveEffectsOf bot args ++ enterEffectsOf bot args).take k)).2

/- Concrete fixtures used by witnesses and the counterexample; the main
fixture is the scenario of the specification: flow main with nodes
welcome and bye. -/

/-- Node main.welcome: onEnter sends hi, onReceive transitions to bye. -/
def nodeWelcome : NodeHandlers Unit :=
  { onEnter := some (fun _ => [Effect.send "hi"])
  , onReceive := some (fun _ _ => [Effect.transition "bye"]) }

/-- Node main.bye: terminal, onEnter sends later. -/
def nodeBye : NodeHandlers Unit :=
  { «end» := true, onEnter := some (fun _ => [Effect.send "later"]) }

/-- The scenario bot of the specification. -/
def botMain : Bot Unit :=
  { config := { defaultStartNode := "main.welcome" }
  , stateManager := [("main.welcome", nodeWelcome), ("main.bye", nodeBye)] }

/-- Node a.x: onReceive issues a cross-flow transition to c.y. -/
def nodeCrossX : NodeHandlers Unit :=
  { onReceive := some (fun _ _ => [Effect.transition "c.y"]) }

/-- Node c.y: onEnter issues a bare transition to b. -/
def nodeCrossY : NodeHandlers Unit :=
  { onEnter := some (fun _ => [Effect.transition "b"]) }

/-- Fixture exercising transition resolution from onEnter after a
cross-flow transition. -/
def botCross : Bot Unit :=
  { config := { defaultStartNode := "a.x" }
  , stateManager := [("a.x", nodeCrossX), ("c.y", nodeCrossY)] }

/-- A fixed response a short-circuiting plugin returns. -/
def scResponse : FlowResponse :=
  { messages := ["short"], next := none, done := true }

/-- A plugin whose intercept returns scResponse without calling next. -/
def scPlugin : BotPlugin Unit :=
  { intercept := some (fun _ _ => scResponse) }

/-- A plugin whose intercept calls next and replaces the messages of the
returned response (the shape of the formatting plugin of the repository). -/
def wrapPlugin : BotPlugin Unit :=
  { intercept := some (fun _ k => { k () with messages := ["wrapped"] }) }

/-- A plugin without an intercept. -/
def noopPlugin : BotPlugin Unit := { intercept := none }

/-- Counterexample bot: a transforming plugin declared before a
short-circuiting plugin. -/
def cexBot : Bot Unit :=
  { config := { defaultStartNode := "m.a", plugins := [wrapPlugin, scPlugin] } }

/-- Witness bot for the amended plugin claim: an interceptless plugin,
then the short-circuiting plugin, then a transforming plugin, over a
registry whose start node would send a message if the engine ran. -/
def botShort : Bot Unit :=
  { config := { defaultStartNode := "main.welcome"
              , plugins := [noopPlugin, scPlugin, wrapPlugin] }
  , stateManager := [("main.welcome", nodeWelcome)] }

section Lemmas

variable {T : Type}

theorem runEffects_append (c : String) (st : List String × Option String)
    (es₁ es₂ : List Effect) :
    runEffects c st (es₁ ++ es₂) = runEffects c (runEffects c st es₁) es₂ :=
  List.foldl_append _ _ _ _

theorem runEffects_fst (c : String) (es : List Effect) :
    ∀ st : List String × Option String,
      (runEffects c st es).1 = st.1 ++ sendTargets es := by
  induction es with
  | nil => intro st; simp [runEffects, sendTargets]
  | cons e es ih =>
    intro st
    have step : runEffects c st (e :: es) = runEffects c (applyEffect c st e) es := rfl
    rw [step, ih]
    cases e with
    | send m => simp [applyEffect, sendTargets, List.filterMap_cons]
    | transition t => simp [applyEffect, sendTargets, List.filterMap_cons]

theorem runEffects_snd (c : String) (es : List Effect) :
    ∀ st : List String × Option String,
      (runEffects c st es).2 =
        match lastTransitionTarget es with
        | some t => some (resolveTarget c t)
        | none => st.2 := by
  induction es with
  | nil => intro st; simp [runEffects, lastTransitionTarget]
  | cons e es ih =>
    intro st
    have step : runEffects c st (e :: es) = runEffects c (applyEffect c st e) es := rfl
    rw [step, ih]
    cases hl : lastTransitionTarget es with
    | some t => simp [lastTransitionTarget, hl]
    | none =>
      cases e with
      | send m => simp [lastTransitionTarget, hl, applyEffect]
      | transition t => simp [lastTransitionTarget, hl, applyEffect]

theorem lastTransitionTarget_isSome (es : List Effect) :
    (lastTransitionTarget es).isSome = es.any isTransitionEffect := by
  induction es with
  | nil => simp [lastTransitionTarget]
  | cons e es ih =>
    cases hl : lastTransitionTarget es with
    | some t =>
      have : es.any isTransitionEffect = true := by
        rw [← ih, hl]; rfl
      simp [lastTransitionTarget, hl, this]
    | none =>
      have : es.any isTransitionEffect = false := by
        rw [← ih, hl]; rfl
      cases e with
      | send m => simp [lastTransitionTarget, hl, this, isTransitionEffect]
      | transition t => simp [lastTransitionTarget, hl, this, isTransitionEffect]

theorem strTruthy_resolveTarget (c t : String) :
    strTruthy (resolveTarget c t) = true := by
  unfold resolveTarget
  split
  · next h =>
    unfold strIncludes at h
    cases ht : t.data with
    | nil => rw [ht] at h; simp [List.contains] at h
    | cons a l => simp [strTruthy, ht]
  · simp only [strTruthy, String.data_append]
    cases (flowSegmentOf c).data <;> simp [List.isEmpty]

theorem optTruthy_stAfterReceive (bot : Bot T) (args : RunArgs T) :
    optTruthy (stAfterReceiveOf bot args).2 =
      (receiveEffectsOf bot args).any isTransitionEffect := by
  unfold stAfterReceiveOf
  rw [runEffects_snd]
  cases hl : lastTransitionTarget (receiveEffectsOf bot args) with
  | none =>
    have := lastTransitionTarget_isSome (receiveEffectsOf bot args)
    rw [hl] at this
    simp [optTruthy, ← this]
  | some t =>
    have := lastTransitionTarget_isSome (receiveEffectsOf bot args)
    rw [hl] at this
    simp [optTruthy, strTruthy_resolveTarget, ← this]

theorem stAfterEnter_eq_trace (bot : Bot T) (args : RunArgs T) :
    stAfterEnterOf bot args =
      runEffects (currentNodeIdOf bot args) ([], none)
        (receiveEffectsOf bot args ++ enterEffectsOf bot args) := by
  rw [runEffects_append]
  rfl

theorem lastTransitionTarget_cons (e : Effect) (es : List Effect) :
    lastTransitionTarget (e :: es) =
      match lastTransitionTarget es with
      | some t => some t
      | none =>
        match e with
        | Effect.transition t => some t
        | Effect.send _ => none := rfl

theorem lastTransitionTarget_append (es₁ es₂ : List Effect) :
    lastTransitionTarget (es₁ ++ es₂) =
      match lastTransitionTarget es₂ with
      | some t => some t
      | none => lastTransitionTarget es₁ := by
  induction es₁ with
  | nil =>
    simp only [List.nil_append]
    cases hl : lastTransitionTarget es₂ with
    | none => simp [lastTransitionTarget]
    | some t => simp
  | cons e es ih =>
    rw [List.cons_append, lastTransitionTarget_cons, ih, lastTransitionTarget_cons]
    cases hl2 : lastTransitionTarget es₂ with
    | some t => simp
    | none => cases lastTransitionTarget es <;> simp

theorem find?_cons_pos {α : Type} (f : α → Bool) (a : α) (l : List α)
    (h : f a = true) : (a :: l).find? f = some a := by
  simp [List.find?, h]

theorem find?_cons_neg {α : Type} (f : α → Bool) (a : α) (l : List α)
    (h : f a = false) : (a :: l).find? f = l.find? f := by
  simp [List.find?, h]

theorem find?_setLoop (k : String) (v : NodeHandlers T) :
    ∀ m : StateManager T,
      (m.map (fun p => if p.1 == k then (k, v) else p)).find? (fun p => p.1 == k) =
        if m.any (fun p => p.1 == k) then some (k, v) else none := by
  intro m
  induction m with
  | nil => rfl
  | cons p m ih =>
    cases hp : (p.1 == k) with
    | true =>
      rw [List.map_cons, if_pos hp,
        find?_cons_pos (fun q => q.1 == k) (k, v) _ (beq_self_eq_true k),
        List.any_cons, hp, Bool.true_or, if_pos rfl]
    | false =>
      rw [List.map_cons, if_neg (by simp [hp]),
        find?_cons_neg (fun q => q.1 == k) p _ hp, ih,
        List.any_cons, hp, Bool.false_or]

theorem find?_setLoop_ne (k k' : String) (hk : k' ≠ k) (v : NodeHandlers T) :
    ∀ m : StateManager T,
      (m.map (fun p => if p.1 == k then (k, v) else p)).find? (fun p => p.1 == k') =
        m.find? (fun p => p.1 == k') := by
  intro m
  induction m with
  | nil => rfl
  | cons p m ih =>
    cases hp : (p.1 == k) with
    | true =>
      have h1 : (k == k') = false := beq_eq_false_iff_ne.mpr (Ne.symm hk)
      have hpk : p.1 = k := eq_of_beq hp
      have h2 : (p.1 == k') = false := by rw [hpk]; exact h1
      rw [List.map_cons, if_pos hp,
        find?_cons_neg (fun q => q.1 == k') (k, v) _ h1,
        find?_cons_neg (fun q => q.1 == k') p _ h2, ih]
    | false =>
      rw [List.map_cons, if_neg (by simp [hp])]
      cases hq : (p.1 == k') with
      | true =>
        rw [find?_cons_pos (fun q => q.1 == k') p _ hq,
          find?_cons_pos (fun q => q.1 == k') p _ hq]
      | false =>
        rw [find?_cons_neg (fun q => q.1 == k') p _ hq,
          find?_cons_neg (fun q => q.1 == k') p _ hq, ih]

theorem mapGet_mapSet_self (m : StateManager T) (k : String) (v : NodeHandlers T) :
    mapGet (mapSet m k v) k = some v := by
  cases hany : (m.any (fun p => p.1 == k)) with
  | true =>
    unfold mapSet
    rw [if_pos hany]
    unfold mapGet
    rw [find?_setLoop, hany]
    rfl
  | false =>
    unfold mapSet
    rw [if_neg (by simp [hany])]
    unfold mapGet
    rw [List.find?_append]
    have hnone : m.find? (fun p => p.1 == k) = none := by
      rw [List.find?_eq_none]
      intro x hx hpx
      have hx2 : m.any (fun p => p.1 == k) = true := List.any_eq_true.mpr ⟨x, hx, hpx⟩
      rw [hany] at hx2
      exact absurd hx2 (by simp)
    rw [hnone]
    rw [find?_cons_pos (fun q => q.1 == k) (k, v) _ (beq_self_eq_true k)]
    rfl

theorem mapGet_mapSet_ne (m : StateManager T) (k k' : String) (v : NodeHandlers T)
    (hk : k' ≠ k) : mapGet (mapSet m k v) k' = mapGet m k' := by
  cases hany : (m.any (fun p => p.1 == k)) with
  | true =>
    unfold mapSet
    rw [if_pos hany]
    unfold mapGet
    rw [find?_setLoop_ne k k' hk]
  | false =>
    unfold mapSet
    rw [if_neg (by simp [hany])]
    unfold mapGet
    rw [List.find?_append]
    have h1 : (k == k') = false := beq_eq_false_iff_ne.mpr (Ne.symm hk)
    rw [find?_cons_neg (fun q => q.1 == k') (k, v) _ h1]
    cases hf : m.find? (fun p => p.1 == k') <;> rfl

theorem buildHandler_cons (ctx : T) (p : BotPlugin T) (ps : List (BotPlugin T))
    (base : Unit → FlowResponse) :
    buildHandler ctx (p :: ps) base =
      match p.intercept with
      | some f => fun _ => f ctx (buildHandler ctx ps base)
      | none => buildHandler ctx ps base := by
  unfold buildHandler
  rw [List.reverse_cons, List.foldl_append]
  rfl

theorem buildHandler_shortcircuit (ctx : T) (p : BotPlugin T)
    (f : T → (Unit → FlowResponse) → FlowResponse) (r : FlowResponse)
    (hf : p.intercept = some f) (hr : ∀ nxt, f ctx nxt = r) :
    ∀ pre : List (BotPlugin T), (∀ q ∈ pre, q.intercept = none) →
      ∀ (post : List (BotPlugin T)) (base : Unit → FlowResponse),
        buildHandler ctx (pre ++ p :: post) base () = r := by
  intro pre
  induction pre with
  | nil =>
    intro _ post base
    rw [List.nil_append, buildHandler_cons, hf]
    exact hr _
  | cons q pre ih =>
    intro hpre post base
    rw [List.cons_append, buildHandler_cons, hpre q (List.mem_cons_self q pre)]
    exact ih (fun q' hq' => hpre q' (List.mem_cons_of_mem q hq')) post base

end Lemmas

section Claims

variable {T : Type}

/-- Claim C1: the engine invokes the onEnter handler of the final node
(when present) iff the node argument was absent at the public boundary
(the falsy test the code performs, so missing or empty, matching the
empty-string convention of claim C10) or a transition was issued during
the onReceive phase.  The model has a single onEnter phase per call,
mirroring the single resolution pass of the code, so at most one onEnter
invocation occurs per call. -/
theorem c1_onEnter_iff (bot : Bot T) (args : RunArgs T) :
    (bot.internalRun args).enterInvoked = true ↔
      ((optTruthy args.node = false ∨
          (bot.internalRun args).receiveEffects.any isTransitionEffect = true) ∧
        ((mapGet bot.stateManager (bot.internalRun args).finalNodeId).bind
            (fun n => n.onEnter)).isSome = true) := by
  show (enterCondOf bot args && (enterHandlerOf bot args).isSome) = true ↔
    ((optTruthy args.node = false ∨
        (receiveEffectsOf bot args).any isTransitionEffect = true) ∧
      (enterHandlerOf bot args).isSome = true)
  unfold enterCondOf isFirstRunOf
  rw [optTruthy_stAfterReceive]
  cases optTruthy args.node <;>
    cases (receiveEffectsOf bot args).any isTransitionEffect <;>
      cases (enterHandlerOf bot args).isSome <;> simp

/-- Claim C3: a run whose final node (resolved after the onReceive phase,
before onEnter, as the code does) is a registered terminal node returns
done true and next absent, whatever transitions occurred; and in every
engine response done is true iff next is absent. -/
theorem c3_terminal_response (bot : Bot T) (args : RunArgs T) :
    (∀ n : NodeHandlers T,
        mapGet bot.stateManager (bot.internalRun args).finalNodeId = some n →
        n.«end» = true →
        (bot.internalRun args).response.done = true ∧
        (bot.internalRun args).response.next = none) ∧
    ((bot.internalRun args).response.done = true ↔
      (bot.internalRun args).response.next = none) := by
  constructor
  · intro n hn hterm
    have hdone : terminalOf (finalNodeOf bot args) = true := by
      have hn' : finalNodeOf bot args = some n := hn
      rw [hn']
      exact hterm
    constructor
    · exact hdone
    · show (if terminalOf (finalNodeOf bot args) then none
          else some (jsOrStr (stAfterEnterOf bot args).2 (currentNodeIdOf bot args))) = none
      rw [hdone]
      rfl
  · cases hd : terminalOf (finalNodeOf bot args) with
    | true =>
      have h1 : (bot.internalRun args).response.done = true := hd
      have h2 : (bot.internalRun args).response.next = none := by
        show (if terminalOf (finalNodeOf bot args) then none
            else some (jsOrStr (stAfterEnterOf bot args).2 (currentNodeIdOf bot args))) = none
        rw [hd]
        rfl
      exact iff_of_true h1 h2
    | false =>
      have h1 : (bot.internalRun args).response.done = false := hd
      have h2 : (bot.internalRun args).response.next =
          some (jsOrStr (stAfterEnterOf bot args).2 (currentNodeIdOf bot args)) := by
        show (if terminalOf (finalNodeOf bot args) then none
            else some (jsOrStr (stAfterEnterOf bot args).2 (currentNodeIdOf bot args))) = some _
        rw [hd]
        rfl
      exact iff_of_false (by simp [h1]) (by simp [h2])

/-- Claim C4: a run whose final node is not terminal returns done false
and next equal to the resolved target of the last transition call of the
whole execution (later calls overwrite earlier ones without error), or
the unchanged current node id if no transition was called. -/
theorem c4_nonterminal_next (bot : Bot T) (args : RunArgs T)
    (h : terminalOf (mapGet bot.stateManager (bot.internalRun args).finalNodeId) = false) :
    (bot.internalRun args).response.done = false ∧
    (bot.internalRun args).response.next =
      some (match lastTransitionTarget
            ((bot.internalRun args).receiveEffects ++ (bot.internalRun args).enterEffects) with
        | some t => resolveTarget (bot.internalRun args).currentNodeId t
        | none => (bot.internalRun args).currentNodeId) := by
  have hfn : terminalOf (finalNodeOf bot args) = false := h
  constructor
  · exact hfn
  · show (if terminalOf (finalNodeOf bot args) then none
        else some (jsOrStr (stAfterEnterOf bot args).2 (currentNodeIdOf bot args))) =
      some (match lastTransitionTarget
        (receiveEffectsOf bot args ++ enterEffectsOf bot args) with
        | some t => resolveTarget (currentNodeIdOf bot args) t
        | none => currentNodeIdOf bot args)
    rw [hfn]
    have hsnd : (stAfterEnterOf bot args).2 =
        (match lastTransitionTarget (receiveEffectsOf bot args ++ enterEffectsOf bot args) with
          | some t => some (resolveTarget (currentNodeIdOf bot args) t)
          | none => none) := by
      rw [stAfterEnter_eq_trace, runEffects_snd]
    cases hl : lastTransitionTarget (receiveEffectsOf bot args ++ enterEffectsOf bot args) with
    | some t =>
      rw [hl] at hsnd
      show some (jsOrStr (stAfterEnterOf bot args).2 (currentNodeIdOf bot args)) = _
      rw [hsnd]
      simp [jsOrStr, strTruthy_resolveTarget]
    | none =>
      rw [hl] at hsnd
      show some (jsOrStr (stAfterEnterOf bot args).2 (currentNodeIdOf bot args)) = _
      rw [hsnd]
      rfl

/-- Claim C5: every transition call of an execution, in the onReceive
phase or in the onEnter phase (even after a cross-flow transition),
writes to the pending next id the target unchanged when it contains the
separator, and otherwise the flow segment of the current node id
(the segment before the first separator) joined with the target. -/
theorem c5_transition_resolution (bot : Bot T) (args : RunArgs T) (k : Nat) (t : String)
    (h : ((bot.internalRun args).receiveEffects ++ (bot.internalRun args).enterEffects)[k]? =
      some (Effect.transition t)) :
    nextAfterPrefix bot args (k + 1) =
      some (if strIncludes t '.' then t
        else flowSegmentOf (bot.internalRun args).currentNodeId ++ "." ++ t) := by
  have h' : (receiveEffectsOf bot args ++ enterEffectsOf bot args)[k]? =
      some (Effect.transition t) := h
  unfold nextAfterPrefix
  rw [List.take_succ, h', runEffects_append]
  rfl

/-- Claim C6: the messages of the response are exactly the arguments of
the send calls of the execution in chronological order, the onReceive
sends strictly before the onEnter sends. -/
theorem c6_messages_order (bot : Bot T) (args : RunArgs T) :
    (bot.internalRun args).response.messages =
      sendTargets (bot.internalRun args).receiveEffects ++
        sendTargets (bot.internalRun args).enterEffects := by
  show (stAfterEnterOf bot args).1 = _
  rw [stAfterEnter_eq_trace, runEffects_fst, List.nil_append]
  unfold sendTargets
  exact List.filterMap_append _ _ _

/-- Claim C7: the engine invokes the onReceive handler of the current
node iff a message argument was supplied at the public boundary (the
truthy test the code performs, so present and nonempty, matching the
empty-string convention of claim C10) and the current node has an
onReceive handler; the model invokes it with the message and context and
replays its effects before the final node resolution. -/
theorem c7_onReceive_iff (bot : Bot T) (args : RunArgs T) :
    (bot.internalRun args).receiveInvoked = true ↔
      (optTruthy args.message = true ∧
        ((mapGet bot.stateManager (bot.internalRun args).currentNodeId).bind
            (fun n => n.onReceive)).isSome = true) := by
  show (optTruthy args.message && (receiveHandlerOf bot args).isSome) = true ↔
    (optTruthy args.message = true ∧ (receiveHandlerOf bot args).isSome = true)
  simp

/-- Claim C8: a run whose resolved current node id has no registry entry
resolves normally (the embedded engine is a total function, and the code
path has no throw): no handler is invoked, no message is produced, done
is false and next is the unchanged current node id (no transition call
can occur, since no handler runs). -/
theorem c8_unknown_node (bot : Bot T) (args : RunArgs T)
    (h : mapGet bot.stateManager (bot.internalRun args).currentNodeId = none) :
    (bot.internalRun args).receiveInvoked = false ∧
    (bot.internalRun args).enterInvoked = false ∧
    (bot.internalRun args).response.messages = [] ∧
    (bot.internalRun args).response.done = false ∧
    (bot.internalRun args).response.next = some (bot.internalRun args).currentNodeId := by
  have hc : currentNodeOf bot args = none := h
  have hrh : receiveHandlerOf bot args = none := by
    unfold receiveHandlerOf
    rw [hc]
    rfl
  have hre : receiveEffectsOf bot args = [] := by
    unfold receiveEffectsOf
    rw [hrh]
  have hst1 : stAfterReceiveOf bot args = ([], none) := by
    unfold stAfterReceiveOf
    rw [hre]
    rfl
  have hfid : finalNodeIdOf bot args = currentNodeIdOf bot args := by
    unfold finalNodeIdOf
    rw [hst1]
    rfl
  have hfn : finalNodeOf bot args = none := by
    unfold finalNodeOf
    rw [hfid]
    exact h
  have heh : enterHandlerOf bot args = none := by
    unfold enterHandlerOf
    rw [hfn]
    rfl
  have hee : enterEffectsOf bot args = [] := by
    unfold enterEffectsOf
    rw [heh]
  have hst2 : stAfterEnterOf bot args = ([], none) := by
    unfold stAfterEnterOf
    rw [hst1, hee]
    rfl
  refine ⟨?_, ?_, ?_, ?_, ?_⟩
  · show receiveRunsOf bot args = false
    unfold receiveRunsOf
    rw [hrh]
    simp
  · show enterRunsOf bot args = false
    unfold enterRunsOf
    rw [heh]
    simp
  · show (stAfterEnterOf bot args).1 = []
    rw [hst2]
  · show terminalOf (finalNodeOf bot args) = false
    rw [hfn]
    rfl
  · show (if terminalOf (finalNodeOf bot args) then none
        else some (jsOrStr (stAfterEnterOf bot args).2 (currentNodeIdOf bot args))) = some _
    rw [hfn, hst2]
    rfl

/-- Claim C9: registering a node with local id i on a builder scoped to
flow f stores the definition under exactly the key f, separator, i,
changes no other key, lets a second registration with the same key
replace the first without error, and every key so inserted contains the
separator. -/
theorem c9_defineNode (f i : String) (hnd : NodeHandlers T) (sm : StateManager T) :
    mapGet ((Flow.node { flowName := f, stateManager := sm } i hnd).stateManager)
        (f ++ "." ++ i) = some hnd ∧
    (∀ k : String, k ≠ f ++ "." ++ i →
      mapGet ((Flow.node { flowName := f, stateManager := sm } i hnd).stateManager) k =
        mapGet sm k) ∧
    (∀ hnd2 : NodeHandlers T,
      mapGet ((Flow.node (Flow.node { flowName := f, stateManager := sm } i hnd)
          i hnd2).stateManager) (f ++ "." ++ i) = some hnd2) ∧
    strIncludes (f ++ "." ++ i) '.' = true := by
  refine ⟨?_, ?_, ?_, ?_⟩
  · exact mapGet_mapSet_self sm _ hnd
  · intro k hk
    exact mapGet_mapSet_ne sm _ k hnd hk
  · intro hnd2
    exact mapGet_mapSet_self _ _ hnd2
  · unfold strIncludes
    rw [String.data_append, String.data_append,
      show (".".data) = ['.'] from rfl]
    simp

/-- Claim C10: at the public run boundary empty strings are treated as
absent arguments: a call with the empty string as node is identical to a
call with no node (so it counts as a first run on the default start
node, whose onEnter runs when present), and a call with the empty string
as message never invokes onReceive. -/
theorem c10_empty_strings (bot : Bot T) (ctx : T) (msg nd : Option String) :
    bot.internalRun { node := some "", context := ctx, message := msg } =
      bot.internalRun { node := none, context := ctx, message := msg } ∧
    (bot.internalRun { node := nd, context := ctx, message := some "" }).receiveInvoked =
      false :=
  ⟨rfl, rfl⟩

/-- Claim C2, counterexample to the claim as stated: in cexBot a
transforming plugin is declared before a short-circuiting plugin whose
intercept returns scResponse without calling next; the Execution Engine
and the inner plugins never run, but run does not resolve with the
return value of the short-circuiting plugin, because the outer plugin
replaces it on the way out. -/
theorem c2_counterexample :
    Bot.run cexBot { node := none, context := (), message := none } ≠ scResponse := by
  decide

/-- Claim C2 as amended: run composes intercepting plugins with the
first-declared plugin outermost (an interceptless plugin adds no layer);
a plugin whose intercept returns a fixed response without using its next
argument stops the chain: the result does not depend on the registry, on
the base handler, or on the later-declared plugins (so the engine and
the plugins inner to it never run), and its return value is the value
run resolves with whenever every earlier-declared plugin has no
intercept; an earlier-declared intercepting plugin may still replace
that value, as the counterexample shows. -/
theorem c2_chain_amended (ctx : T) :
    (∀ (p : BotPlugin T) (ps : List (BotPlugin T)) (base : Unit → FlowResponse)
        (f : T → (Unit → FlowResponse) → FlowResponse),
      p.intercept = some f →
      buildHandler ctx (p :: ps) base = fun _ => f ctx (buildHandler ctx ps base)) ∧
    (∀ (p : BotPlugin T) (ps : List (BotPlugin T)) (base : Unit → FlowResponse),
      p.intercept = none →
      buildHandler ctx (p :: ps) base = buildHandler ctx ps base) ∧
    (∀ (pre post : List (BotPlugin T)) (p : BotPlugin T)
        (f : T → (Unit → FlowResponse) → FlowResponse) (r : FlowResponse),
      p.intercept = some f → (∀ nxt, f ctx nxt = r) →
      (∀ q ∈ pre, q.intercept = none) →
      ∀ (d : String) (sm : StateManager T) (nd msg : Option String),
        Bot.run { config := { defaultStartNode := d, plugins := pre ++ p :: post }
                , stateManager := sm }
          { node := nd, context := ctx, message := msg } = r) := by
  refine ⟨?_, ?_, ?_⟩
  · intro p ps base f hf
    rw [buildHandler_cons, hf]
  · intro p ps base hn
    rw [buildHandler_cons, hn]
  · intro pre post p f r hf hr hpre d sm nd msg
    exact buildHandler_shortcircuit ctx p f r hf hr pre hpre post _

/-- Witness for c2_chain_amended: in botShort an interceptless plugin
precedes the short-circuiting plugin, a transforming plugin follows it,
and the registry would emit a greeting if the engine ran; run resolves
with exactly the short-circuit response. -/
theorem c2_chain_amended_witness :
    scPlugin.intercept = some (fun _ _ => scResponse) ∧
    Bot.run botShort { node := none, context := (), message := none } = scResponse := by
  refine ⟨rfl, ?_⟩
  exact (c2_chain_amended ()).2.2 [noopPlugin] [wrapPlugin] scPlugin
    (fun _ _ => scResponse) scResponse rfl (fun _ => rfl)
    (fun q hq => by rw [List.mem_singleton.mp hq]; rfl)
    "main.welcome" [("main.welcome", nodeWelcome)] none none

/-- Witness for c3_terminal_response: the scenario run that receives a
message on main.welcome and transitions to the terminal node main.bye
ends with done true and next absent. -/
theorem c3_witness :
    mapGet botMain.stateManager
        (botMain.internalRun
          { node := some "main.welcome", context := (), message := some "x" }).finalNodeId =
      some nodeBye ∧
    nodeBye.«end» = true ∧
    (botMain.internalRun
        { node := some "main.welcome", context := (), message := some "x" }).response.done =
      true ∧
    (botMain.internalRun
        { node := some "main.welcome", context := (), message := some "x" }).response.next =
      none := by
  have h := (c3_terminal_response botMain
    { node := some "main.welcome", context := (), message := some "x" }).1 nodeBye rfl rfl
  exact ⟨rfl, rfl, h.1, h.2⟩

/-- Witness for c4_nonterminal_next: the first scenario run (no node, no
message) ends on the non-terminal welcome node with done false and next
the unchanged current node id. -/
theorem c4_witness :
    terminalOf (mapGet botMain.stateManager
        (botMain.internalRun { node := none, context := (), message := none }).finalNodeId) =
      false ∧
    (botMain.internalRun { node := none, context := (), message := none }).response.done =
      false ∧
    (botMain.internalRun { node := none, context := (), message := none }).response.next =
      some (match lastTransitionTarget
          ((botMain.internalRun { node := none, context := (), message := none }).receiveEffects ++
            (botMain.internalRun { node := none, context := (), message := none }).enterEffects) with
        | some t => resolveTarget
            (botMain.internalRun { node := none, context := (), message := none }).currentNodeId t
        | none =>
            (botMain.internalRun { node := none, context := (), message := none }).currentNodeId) := by
  have h := c4_nonterminal_next botMain { node := none, context := (), message := none } rfl
  exact ⟨rfl, h.1, h.2⟩

/-- Witness for c5_transition_resolution: in botCross the onReceive
phase transitions across flows to c.y, whose onEnter issues the bare
target b; that second call still resolves against the flow segment of
the current node a.x, yielding a.b. -/
theorem c5_witness :
    ((botCross.internalRun
          { node := some "a.x", context := (), message := some "m" }).receiveEffects ++
        (botCross.internalRun
          { node := some "a.x", context := (), message := some "m" }).enterEffects)[1]? =
      some (Effect.transition "b") ∧
    nextAfterPrefix botCross { node := some "a.x", context := (), message := some "m" } 2 =
      some (if strIncludes "b" '.' then "b"
        else flowSegmentOf (botCross.internalRun
            { node := some "a.x", context := (), message := some "m" }).currentNodeId ++
          "." ++ "b") := by
  exact ⟨rfl, c5_transition_resolution botCross
    { node := some "a.x", context := (), message := some "m" } 1 "b" rfl⟩

/-- Witness for c8_unknown_node: running botMain on the unregistered id
ghost.z with a message produces no handler invocation, no messages, done
false and next ghost.z. -/
theorem c8_witness :
    mapGet botMain.stateManager
        (botMain.internalRun
          { node := some "ghost.z", context := (), message := some "hello" }).currentNodeId =
      none ∧
    ((botMain.internalRun
          { node := some "ghost.z", context := (), message := some "hello" }).receiveInvoked =
        false ∧
      (botMain.internalRun
          { node := some "ghost.z", context := (), message := some "hello" }).enterInvoked =
        false ∧
      (botMain.internalRun
          { node := some "ghost.z", context := (), message := some "hello" }).response.messages =
        [] ∧
      (botMain.internalRun
          { node := some "ghost.z", context := (), message := some "hello" }).response.done =
        false ∧
      (botMain.internalRun
          { node := some "ghost.z", context := (), message := some "hello" }).response.next =
        some (botMain.internalRun
          { node := some "ghost.z", context := (), message := some "hello" }).currentNodeId) := by
  exact ⟨rfl, c8_unknown_node botMain
    { node := some "ghost.z", context := (), message := some "hello" } rfl⟩

/-- Witness for c9_defineNode: registering welcome on a builder scoped
to main stores it under main.welcome, leaves other.node untouched, and a
second registration replaces the first. -/
theorem c9_witness :
    mapGet ((Flow.node { flowName := "main", stateManager := ([] : StateManager Unit) }
        "welcome" nodeWelcome).stateManager) ("main" ++ "." ++ "welcome") = some nodeWelcome ∧
    mapGet ((Flow.node { flowName := "main", stateManager := ([] : StateManager Unit) }
        "welcome" nodeWelcome).stateManager) "other.node" =
      mapGet ([] : StateManager Unit) "other.node" ∧
    mapGet ((Flow.node (Flow.node { flowName := "main", stateManager := ([] : StateManager Unit) }
        "welcome" nodeWelcome) "welcome" nodeBye).stateManager) ("main" ++ "." ++ "welcome") =
      some nodeBye ∧
    strIncludes ("main" ++ "." ++ "welcome") '.' = true := by
  have h := c9_defineNode "main" "welcome" nodeWelcome ([] : StateManager Unit)
  exact ⟨h.1, h.2.1 "other.node" (by decide), h.2.2.1 nodeBye, h.2.2.2⟩

end Claims

end Pitu
